import Mathlib

/-!
# ddbsync: a mutual exclusion lock kept in a DynamoDB table

A shallow embedding of `src/mutex.go`.  The package keeps one item per lock in the
table `towbe_locks`; `Lock`, `LockOrFail`, `Unlock`, `PruneExpired` and
`CheckIfExists` are methods of `Mutex` that each send requests to the process-wide
client `db`.

Modelling decisions.

* The client `db` is a value of type `DynamoDB`: the items of the table `towbe_locks`
  together with the trace of the requests received so far.  Every method takes the
  client state and hands back the new one.
* The table is a map from lock id to item.  `GetItem` and `DeleteItem` are addressed
  with the marshalled `MutexKey`, whose only attribute is `id`, so `id` is the key
  attribute of the table.  A `PutItem` under the condition `attribute_not_exists(a)`
  that the store evaluates succeeds iff no item with that key exists or the existing item
  lacks attribute `a`; an unconditional `DeleteItem` succeeds whether or not the item exists.
* The service does not evaluate every condition: an expression that names one of its reserved
  words, with no ExpressionAttributeNames to stand for it, is refused with
  `ValidationException`.  `hash` is such a word and `id` is not, and the package sets no
  ExpressionAttributeNames anywhere.  A store says in its field `refusesReservedWords`
  whether it refuses as the service does; a store written without that field evaluates every
  condition, which is the store rule the mutual exclusion claim C1 is stated under.
* Transport faults come from a fault oracle `Faults`: the request number `n` (counted
  from 0 over the trace) fails with `RequestError` and has no effect on the items when
  the oracle says so.  `noFault` is the fault-free store.
* The validation of key values by the service (for instance its refusal of an empty key
  string) and the logging call of `LockOrFail` are outside the model.
* `Ttl` is an int64 that is only stored, never computed with, so it is an `Int`.  `NewMutex`
  builds the client and returns the zero `Mutex`; it sends no request.  The struct `item` of
  `db.go` is used by no method.
* The two endless `for` loops (`Lock`, `Unlock`) take a fuel argument counting loop
  iterations; a run that used up its fuel answers `Outcome.running` together with the
  state reached, so statements about runs that never return can be made.
-/

namespace ddbsync

/-! ## Data model -/

/-- The type dynamodb.AttributeValue, restricted to the kinds the marshaller produces for a
`Mutex`: a string (`S`) and a number (`N`, an int64 rendered in decimal by the SDK). -/
inductive AttributeValue where
  | S (s : String)
  | N (n : Int)
  deriving DecidableEq, Repr

/-- The Go type `map[string]*dynamodb.AttributeValue`, as an association list. -/
abbrev AttrMap := List (String × AttributeValue)

/-- The struct `MutexKey` of the source: field `Id`, stored under the attribute name `id`. -/
structure MutexKey where
  Id : String
  deriving DecidableEq, Repr

/-- The struct `Mutex` of the source: it embeds `MutexKey` and adds `Ttl int64`. -/
structure Mutex extends MutexKey where
  Ttl : Int
  deriving DecidableEq, Repr

/-- Errors a method can hand back.  The Go value `nil` is `none : error`. -/
inductive Err where
  | ConditionalCheckFailedException
  | RequestError
  | ResourceNotFoundException
  | ValidationException
  | SerializationError
  deriving DecidableEq, Repr

/-- The Go interface type `error`; `none` is `nil`. -/
abbrev error := Option Err

/-- The call `dynamodbattribute.MarshalMap(m.MutexKey)`: one attribute `id` (from the json tag). -/
def MarshalMapKey (k : MutexKey) : Except Err AttrMap :=
  .ok [("id", .S k.Id)]

/-- The call `dynamodbattribute.MarshalMap(m)`: the embedded `MutexKey` is flattened, so the
item has the attributes `id` and `Ttl`. -/
def MarshalMap (m : Mutex) : Except Err AttrMap :=
  .ok [("id", .S m.Id), ("Ttl", .N m.Ttl)]

/-! ## The store -/

/-- The condition expressions the package sends: `attribute_not_exists(path)`. -/
inductive ConditionExpression where
  | attribute_not_exists (path : String)
  deriving DecidableEq, Repr

structure PutItemInput where
  TableName : String
  ConditionExpression : Option ConditionExpression
  Item : AttrMap
  deriving DecidableEq, Repr

structure GetItemInput where
  TableName : String
  Key : AttrMap
  deriving DecidableEq, Repr

structure DeleteItemInput where
  TableName : String
  Key : AttrMap
  deriving DecidableEq, Repr

structure GetItemOutput where
  Item : Option AttrMap
  deriving DecidableEq, Repr

/-- A request as the store receives it. -/
inductive Request where
  | PutItem (input : PutItemInput)
  | GetItem (input : GetItemInput)
  | DeleteItem (input : DeleteItemInput)
  deriving DecidableEq, Repr

/-- The client `db`: the items of table `towbe_locks`, the requests received so far, and
whether the store refuses a condition expression that names a reserved word, as the service
does.  A store written without the last field evaluates every condition. -/
structure DynamoDB where
  items : List AttrMap
  trace : List Request
  refusesReservedWords : Bool := false
  deriving DecidableEq, Repr

/-- Fault oracle: `fault n = true` when request number `n` meets a transport fault. -/
abbrev Faults := Nat → Bool

/-- The fault-free store. -/
def noFault : Faults := fun _ => false

/-- The store on which every request meets a transport fault. -/
def allFault : Faults := fun _ => true

/-- The store on which exactly request number `k` meets a transport fault. -/
def faultAt (k : Nat) : Faults := fun n => n == k

/-- Name of the only table of the store. -/
def tableName : String := "towbe_locks"

/-- Key attribute of the table. -/
def keyAttribute : String := "id"

/-- The primary key value of an item or of a key map. -/
def keyOf (a : AttrMap) : Option AttributeValue := a.lookup keyAttribute

/-- The item stored under the key of `key`, if any. -/
def lookupItem (items : List AttrMap) (key : AttrMap) : Option AttrMap :=
  items.find? (fun it => keyOf it == keyOf key)

/-- The items without the one stored under the key of `key`. -/
def removeItem (items : List AttrMap) (key : AttrMap) : List AttrMap :=
  items.filter (fun it => !(keyOf it == keyOf key))

/-- Evaluation of a condition expression against the item currently stored (if any). -/
def ConditionExpression.holds : ConditionExpression → Option AttrMap → Bool
  | .attribute_not_exists _, none => true
  | .attribute_not_exists path, some old => (old.lookup path).isNone

/-- Reserved words of the service, from its documentation: the words of that list that begin
with the letter h.  The only attribute names the package writes into an expression are `hash`
and `id`; `hash` is on the list and `id` is not, and no other word of the list plays a part. -/
def reservedWords : List String :=
  ["handler", "hash", "have", "having", "heap", "hidden", "hold", "hour", "hours"]

/-- Whether an attribute name is a reserved word; the service compares without regard to case. -/
def isReservedWord (path : String) : Bool :=
  reservedWords.contains (String.mk (path.data.map Char.toLower))

/-- Whether a condition expression names a reserved word directly. -/
def ConditionExpression.namesReservedWord : ConditionExpression → Bool
  | .attribute_not_exists path => isReservedWord path

/-- The method `db.PutItem`.  A request that arrives is first validated: the table must exist,
and a store that refuses reserved words answers `ValidationException` to a condition naming
one.  Only then is the condition evaluated against the item stored under the key. -/
def DynamoDB.PutItem (db : DynamoDB) (fault : Faults) (input : PutItemInput) : error × DynamoDB :=
  let db1 : DynamoDB := { db with trace := db.trace ++ [Request.PutItem input] }
  if fault db.trace.length then (some .RequestError, db1)
  else if input.TableName ≠ tableName then (some .ResourceNotFoundException, db1)
  else if db.refusesReservedWords
      && (match input.ConditionExpression with
          | none => false
          | some c => c.namesReservedWord) then (some .ValidationException, db1)
  else
    let ok : Bool :=
      match input.ConditionExpression with
      | none => true
      | some c => c.holds (lookupItem db.items input.Item)
    if ok then (none, { db1 with items := input.Item :: removeItem db.items input.Item })
    else (some .ConditionalCheckFailedException, db1)

/-- The method `db.GetItem`.  The output struct is allocated also when the request fails. -/
def DynamoDB.GetItem (db : DynamoDB) (fault : Faults) (input : GetItemInput) :
    GetItemOutput × error × DynamoDB :=
  let db1 : DynamoDB := { db with trace := db.trace ++ [Request.GetItem input] }
  if fault db.trace.length then ({ Item := none }, some .RequestError, db1)
  else if input.TableName ≠ tableName then ({ Item := none }, some .ResourceNotFoundException, db1)
  else ({ Item := lookupItem db.items input.Key }, none, db1)

/-- The method `db.DeleteItem`, without condition: succeeds whether or not the item exists. -/
def DynamoDB.DeleteItem (db : DynamoDB) (fault : Faults) (input : DeleteItemInput) :
    error × DynamoDB :=
  let db1 : DynamoDB := { db with trace := db.trace ++ [Request.DeleteItem input] }
  if fault db.trace.length then (some .RequestError, db1)
  else if input.TableName ≠ tableName then (some .ResourceNotFoundException, db1)
  else (none, { db1 with items := removeItem db.items input.Key })

/-- The method `String()` of the output struct: the pretty printer of the SDK writes an opening
brace and a newline, then the fields that are set, then a newline and the closing brace.  The
rendering of an attribute map is the argument `render`. -/
def GetItemOutput.String (render : AttrMap → String) (o : GetItemOutput) : String :=
  "\x7b\n" ++ (match o.Item with
    | none => ""
    | some it => "  Item: " ++ render it) ++ "\n\x7d"

/-! ## The methods of `Mutex` -/

/-- What a run of a loop has produced when its fuel is used up or it has returned. -/
inductive Outcome where
  | returned (err : error)
  | running
  deriving DecidableEq, Repr

/-- The method `PruneExpired` (mutex.go 117-130): one `GetItem`, whose output is dropped. -/
def PruneExpired (fault : Faults) (m : Mutex) (db : DynamoDB) : error × DynamoDB :=
  match MarshalMapKey m.toMutexKey with
  | .error err => (some err, db)
  | .ok marshalledKey =>
    let getItemInput : GetItemInput := { TableName := "towbe_locks", Key := marshalledKey }
    let (_, err, db1) := db.GetItem fault getItemInput
    (err, db1)

/-- The method `Lock` (mutex.go 55-72); the first argument after the oracle bounds the number
of loop iterations. -/
def Lock (fault : Faults) : Nat → Mutex → DynamoDB → Outcome × DynamoDB
  | 0, _, db => (.running, db)
  | fuel + 1, m, db =>
    let db1 := (PruneExpired fault m db).2
    match MarshalMap m with
    | .error err => (.returned (some err), db1)
    | .ok marshalledMutex =>
      let putItemInput : PutItemInput :=
        { TableName := "towbe_locks",
          ConditionExpression := some (.attribute_not_exists "hash"),
          Item := marshalledMutex }
      match db1.PutItem fault putItemInput with
      | (none, db2) => (.returned none, db2)
      | (some _, db2) => Lock fault fuel m db2

/-- The method `LockOrFail` (mutex.go 74-89). -/
def LockOrFail (fault : Faults) (m : Mutex) (db : DynamoDB) : error × DynamoDB :=
  match MarshalMap m with
  | .error err => (some err, db)
  | .ok marshalledMutex =>
    let putItemInput : PutItemInput :=
      { TableName := "towbe_locks",
        ConditionExpression := some (.attribute_not_exists "id"),
        Item := marshalledMutex }
    db.PutItem fault putItemInput

/-- The method `Unlock` (mutex.go 92-109); the first argument after the oracle bounds the
number of loop iterations. -/
def Unlock (fault : Faults) : Nat → Mutex → DynamoDB → Outcome × DynamoDB
  | 0, _, db => (.running, db)
  | fuel + 1, m, db =>
    match MarshalMapKey m.toMutexKey with
    | .error err => (.returned (some err), db)
    | .ok marshalledKey =>
      let deleteItemInput : DeleteItemInput := { TableName := "towbe_locks", Key := marshalledKey }
      match db.DeleteItem fault deleteItemInput with
      | (none, db1) => (.returned none, db1)
      | (some _, db1) => Unlock fault fuel m db1

/-- The method `CheckIfExists` (mutex.go 132-148). -/
def CheckIfExists (render : AttrMap → String) (fault : Faults) (m : Mutex) (db : DynamoDB) :
    Bool × DynamoDB :=
  match MarshalMapKey m.toMutexKey with
  | .error _ => (false, db)
  | .ok marshalledKey =>
    let getItemInput : GetItemInput := { TableName := "towbe_locks", Key := marshalledKey }
    let (output, _, db1) := db.GetItem fault getItemInput
    if output.String render == "" then (true, db1) else (false, db1)

/-! ## Vocabulary of the statements -/

/-- The record stored for lock id `k`, if any. -/
def record (db : DynamoDB) (k : String) : Option AttrMap :=
  lookupItem db.items [("id", .S k)]

/-- All records stored for lock id `k`. -/
def recordsOf (db : DynamoDB) (k : String) : List AttrMap :=
  db.items.filter (fun it => keyOf it == some (.S k))

/-- The requests a method sent: what the trace of `db2` has beyond the trace of `db1`. -/
def sent (db1 db2 : DynamoDB) : List Request :=
  db2.trace.drop db1.trace.length

/-- The delete request of `Unlock` for lock id `k`. -/
def deleteRequest (k : String) : Request :=
  .DeleteItem { TableName := "towbe_locks", Key := [("id", .S k)] }

/-- The lookup request of `PruneExpired` and `CheckIfExists` for lock id `k`. -/
def getRequest (k : String) : Request :=
  .GetItem { TableName := "towbe_locks", Key := [("id", .S k)] }

/-- The conditional insert request for mutex `m` under `attribute_not_exists(path)`. -/
def putRequest (path : String) (m : Mutex) : Request :=
  .PutItem { TableName := "towbe_locks",
             ConditionExpression := some (.attribute_not_exists path),
             Item := [("id", .S m.Id), ("Ttl", .N m.Ttl)] }

/-- The input of the conditional insert that `Lock` builds for mutex `m`. -/
def lockInsert (m : Mutex) : PutItemInput :=
  { TableName := "towbe_locks",
    ConditionExpression := some (.attribute_not_exists "hash"),
    Item := [("id", .S m.Id), ("Ttl", .N m.Ttl)] }

/-- The requests of `n` iterations of `Lock`: a lookup and a conditional insert each. -/
def lockRequests (m : Mutex) : Nat → List Request
  | 0 => []
  | n + 1 => getRequest m.Id :: putRequest "hash" m :: lockRequests m n

/-- A store holding the one record a holder with Ttl 5 wrote for the lock `job-42`. -/
def heldDb : DynamoDB :=
  { items := [[("id", .S "job-42"), ("Ttl", .N 5)]], trace := [] }

/-- The empty store. -/
def emptyDb : DynamoDB := { items := [], trace := [] }

/-- The store `db` taken as one that refuses reserved words, as the service does. -/
def asService (db : DynamoDB) : DynamoDB :=
  { db with refusesReservedWords := true }

/-- The service holding the one record a holder with Ttl 5 wrote for the lock `job-42`. -/
def serviceDb : DynamoDB :=
  { items := [[("id", .S "job-42"), ("Ttl", .N 5)]], trace := [], refusesReservedWords := true }

/-- A store that evaluates every condition and holds for `job-42` a record with an attribute
`hash`, which no method of the package writes. -/
def hashDb : DynamoDB :=
  { items := [[("id", .S "job-42"), ("hash", .S "x")]], trace := [] }

/-! ## Lemmas about the store -/

theorem keyOf_key (k : String) : keyOf [("id", .S k)] = some (.S k) := by
  simp [keyOf, keyAttribute, List.lookup]

theorem keyOf_item (k : String) (t : Int) :
    keyOf [("id", .S k), ("Ttl", .N t)] = some (.S k) := by
  simp [keyOf, keyAttribute, List.lookup]

theorem lookupItem_item (items : List AttrMap) (k : String) (t : Int) :
    lookupItem items [("id", .S k), ("Ttl", .N t)] = lookupItem items [("id", .S k)] := by
  simp [lookupItem, keyOf_key, keyOf_item]

theorem removeItem_item (items : List AttrMap) (k : String) (t : Int) :
    removeItem items [("id", .S k), ("Ttl", .N t)] = removeItem items [("id", .S k)] := by
  simp [removeItem, keyOf_key, keyOf_item]

/-- An item found under a key carries that key. -/
theorem keyOf_of_lookupItem {items : List AttrMap} {key old : AttrMap}
    (h : lookupItem items key = some old) : keyOf old = keyOf key := by
  have := List.find?_some h
  simpa using this

/-- An item found under a lock id has the attribute `id`. -/
theorem lookup_id_of_lookupItem {items : List AttrMap} {k : String} {old : AttrMap}
    (h : lookupItem items [("id", .S k)] = some old) : old.lookup "id" = some (.S k) := by
  have := keyOf_of_lookupItem h
  rw [keyOf_key] at this
  exact this

theorem removeItem_eq_self {items : List AttrMap} {key : AttrMap}
    (h : lookupItem items key = none) : removeItem items key = items := by
  unfold removeItem
  rw [List.filter_eq_self]
  intro it hit
  have := List.find?_eq_none.mp h it hit
  simpa using this

theorem lookupItem_removeItem_self (items : List AttrMap) (key : AttrMap) :
    lookupItem (removeItem items key) key = none := by
  unfold lookupItem removeItem
  rw [List.find?_eq_none]
  intro it hit
  have := (List.mem_filter.mp hit).2
  simpa using this

theorem lookupItem_removeItem_of_ne (items : List AttrMap) {key other : AttrMap}
    (h : keyOf other ≠ keyOf key) :
    lookupItem (removeItem items key) other = lookupItem items other := by
  induction items with
  | nil => rfl
  | cons it rest ih =>
    unfold lookupItem removeItem at ih ⊢
    rw [List.filter_cons]
    cases hk : (keyOf it == keyOf key) <;> cases ho : (keyOf it == keyOf other)
    · simp [List.find?_cons, ho, ih]
    · simp [List.find?_cons, ho]
    · simp [List.find?_cons, ho, ih]
    · have e1 : keyOf it = keyOf key := beq_iff_eq.mp hk
      have e2 : keyOf it = keyOf other := beq_iff_eq.mp ho
      exact absurd (e2.symm.trans e1) h

theorem removeItem_idem (items : List AttrMap) (key : AttrMap) :
    removeItem (removeItem items key) key = removeItem items key :=
  removeItem_eq_self (lookupItem_removeItem_self items key)

theorem filter_key_removeItem (items : List AttrMap) (k : String) :
    (removeItem items [("id", .S k)]).filter (fun it => keyOf it == some (.S k)) = [] := by
  rw [List.filter_eq_nil_iff]
  intro it hit
  have := (List.mem_filter.mp hit).2
  rw [keyOf_key] at this
  simpa using this

/-! ## The single store calls, fault-free -/

theorem id_not_reserved : isReservedWord "id" = false := by decide

theorem hash_reserved : isReservedWord "hash" = true := by decide

theorem PutItem_noFault (db : DynamoDB) (input : PutItemInput) (c : ConditionExpression)
    (ht : input.TableName = tableName) (hc : input.ConditionExpression = some c)
    (hr : (db.refusesReservedWords && c.namesReservedWord) = false) :
    db.PutItem noFault input
      = if c.holds (lookupItem db.items input.Item) then
          (none, { db with items := input.Item :: removeItem db.items input.Item,
                           trace := db.trace ++ [.PutItem input] })
        else
          (some .ConditionalCheckFailedException,
            { db with trace := db.trace ++ [.PutItem input] }) := by
  simp [DynamoDB.PutItem, noFault, ht, hc, hr]

theorem DeleteItem_noFault (db : DynamoDB) (input : DeleteItemInput)
    (ht : input.TableName = tableName) :
    db.DeleteItem noFault input
      = (none, { db with items := removeItem db.items input.Key,
                         trace := db.trace ++ [.DeleteItem input] }) := by
  simp [DynamoDB.DeleteItem, noFault, ht]

/-- Every `PutItem` is recorded in the trace, whatever the store answers. -/
theorem PutItem_trace (fault : Faults) (db : DynamoDB) (input : PutItemInput) :
    (db.PutItem fault input).2.trace = db.trace ++ [.PutItem input] := by
  simp only [DynamoDB.PutItem]
  split_ifs <;> rfl

/-- The state after a `PutItem` that the store accepted. -/
theorem PutItem_accepted {fault : Faults} {db db2 : DynamoDB} {input : PutItemInput}
    (h : db.PutItem fault input = (none, db2)) :
    db2 = { db with items := input.Item :: removeItem db.items input.Item,
                    trace := db.trace ++ [.PutItem input] } := by
  simp only [DynamoDB.PutItem] at h
  split_ifs at h <;> simp_all

theorem GetItem_items (fault : Faults) (db : DynamoDB) (input : GetItemInput) :
    (db.GetItem fault input).2.2 = { db with trace := db.trace ++ [.GetItem input] } := by
  unfold DynamoDB.GetItem
  split_ifs <;> rfl

theorem PruneExpired_state (fault : Faults) (m : Mutex) (db : DynamoDB) :
    (PruneExpired fault m db).2 = { db with trace := db.trace ++ [getRequest m.Id] } := by
  simp only [PruneExpired, MarshalMapKey, getRequest]
  exact GetItem_items fault db _

/-- What `LockOrFail` does on the fault-free store, in one equation. -/
theorem LockOrFail_noFault (m : Mutex) (db : DynamoDB) :
    LockOrFail noFault m db
      = if (record db m.Id).isNone then
          (none, { db with items := [("id", .S m.Id), ("Ttl", .N m.Ttl)]
                                      :: removeItem db.items [("id", .S m.Id)],
                           trace := db.trace ++ [putRequest "id" m] })
        else
          (some .ConditionalCheckFailedException,
            { db with trace := db.trace ++ [putRequest "id" m] }) := by
  simp only [LockOrFail, MarshalMap, putRequest, record]
  rw [PutItem_noFault db _ (.attribute_not_exists "id") rfl rfl
    (by simp [ConditionExpression.namesReservedWord, id_not_reserved])]
  simp only [lookupItem_item, removeItem_item]
  cases h : lookupItem db.items [("id", .S m.Id)] with
  | none => simp [ConditionExpression.holds]
  | some old => simp [ConditionExpression.holds, lookup_id_of_lookupItem h]

/-- What one iteration of `Unlock` does on the fault-free store. -/
theorem Unlock_noFault (fuel : Nat) (m : Mutex) (db : DynamoDB) :
    Unlock noFault (fuel + 1) m db
      = (.returned none, { db with items := removeItem db.items [("id", .S m.Id)],
                                   trace := db.trace ++ [deleteRequest m.Id] }) := by
  simp only [Unlock, MarshalMapKey, deleteRequest]
  rw [DeleteItem_noFault db _ rfl]

/-- What `Lock` does on the fault-free store when the insert condition passes. -/
theorem Lock_noFault_of_holds (fuel : Nat) (m : Mutex) (db : DynamoDB)
    (hr : db.refusesReservedWords = false)
    (h : (ConditionExpression.attribute_not_exists "hash").holds (record db m.Id) = true) :
    Lock noFault (fuel + 1) m db
      = (.returned none, { db with items := [("id", .S m.Id), ("Ttl", .N m.Ttl)]
                                              :: removeItem db.items [("id", .S m.Id)],
                                   trace := db.trace ++ [getRequest m.Id, putRequest "hash" m] }) := by
  simp only [Lock, MarshalMap, PruneExpired_state, putRequest]
  rw [PutItem_noFault _ _ (.attribute_not_exists "hash") rfl rfl (by simp [hr])]
  simp only [lookupItem_item, removeItem_item]
  unfold record at h
  simp [h]

theorem recordsOf_after_put (items : List AttrMap) (tr : List Request) (r : Bool) (k : String)
    (t : Int) :
    recordsOf { items := [("id", .S k), ("Ttl", .N t)] :: removeItem items [("id", .S k)],
                trace := tr, refusesReservedWords := r } k = [[("id", .S k), ("Ttl", .N t)]] := by
  simp only [recordsOf, List.filter_cons, keyOf_item, filter_key_removeItem]
  simp

theorem record_after_put (items : List AttrMap) (tr : List Request) (r : Bool) (k : String)
    (t : Int) :
    record { items := [("id", .S k), ("Ttl", .N t)] :: removeItem items [("id", .S k)],
             trace := tr, refusesReservedWords := r } k = some [("id", .S k), ("Ttl", .N t)] := by
  simp [record, lookupItem, List.find?_cons, keyOf_item, keyOf_key]

/-! ## The loops under faults -/

/-- A delete attempt that meets a fault is followed by the next iteration of `Unlock`. -/
theorem Unlock_step_fault (fault : Faults) (fuel : Nat) (m : Mutex) (db : DynamoDB)
    (h : fault db.trace.length = true) :
    Unlock fault (fuel + 1) m db
      = Unlock fault fuel m { db with trace := db.trace ++ [deleteRequest m.Id] } := by
  simp [Unlock, MarshalMapKey, DynamoDB.DeleteItem, h, deleteRequest]

/-- A delete attempt that meets no fault ends `Unlock` with nil. -/
theorem Unlock_step_ok (fault : Faults) (fuel : Nat) (m : Mutex) (db : DynamoDB)
    (h : fault db.trace.length = false) :
    Unlock fault (fuel + 1) m db
      = (.returned none, { db with items := removeItem db.items [("id", .S m.Id)],
                                   trace := db.trace ++ [deleteRequest m.Id] }) := by
  simp [Unlock, MarshalMapKey, DynamoDB.DeleteItem, h, deleteRequest, tableName]

/-- As long as the delete attempts meet faults, `Unlock` keeps iterating. -/
theorem Unlock_faulty_run (fault : Faults) (m : Mutex) :
    ∀ (j : Nat) (db : DynamoDB) (fuel : Nat),
      (∀ i, i < j → fault (db.trace.length + i) = true) →
      Unlock fault (j + fuel) m db
        = Unlock fault fuel m
            { db with trace := db.trace ++ List.replicate j (deleteRequest m.Id) } := by
  intro j
  induction j with
  | zero => intro db fuel _; simp
  | succ j ih =>
    intro db fuel h
    have h0 : fault db.trace.length = true := by simpa using h 0 (Nat.succ_pos j)
    have e : j + 1 + fuel = (j + fuel) + 1 := by omega
    rw [e, Unlock_step_fault fault _ m db h0, ih]
    · simp [List.replicate_succ]
    · intro i hi
      have := h (i + 1) (by omega)
      simpa [Nat.add_assoc, Nat.add_comm 1 i] using this

/-- `Unlock` has no path that returns an error. -/
theorem Unlock_never_fails (fault : Faults) (m : Mutex) :
    ∀ (fuel : Nat) (db : DynamoDB) (e : Err), (Unlock fault fuel m db).1 ≠ .returned (some e) := by
  intro fuel
  induction fuel with
  | zero => intro db e; simp [Unlock]
  | succ fuel ih =>
    intro db e
    by_cases h : fault db.trace.length = true
    · rw [Unlock_step_fault fault fuel m db h]; exact ih _ e
    · rw [Unlock_step_ok fault fuel m db (by simpa using h)]; simp

/-- An insert attempt of `Lock` that meets a fault is followed by the next iteration. -/
theorem Lock_step_fault (fault : Faults) (fuel : Nat) (m : Mutex) (db : DynamoDB)
    (h : fault (db.trace.length + 1) = true) :
    Lock fault (fuel + 1) m db
      = Lock fault fuel m
          { db with trace := db.trace ++ [getRequest m.Id, putRequest "hash" m] } := by
  simp [Lock, MarshalMap, PruneExpired_state, DynamoDB.PutItem, h, putRequest]

/-- The state after the store answered one insert attempt of `Lock`, whatever the answer. -/
theorem Lock_step (fault : Faults) (fuel : Nat) (m : Mutex) (db : DynamoDB) :
    Lock fault (fuel + 1) m db
      = match DynamoDB.PutItem (PruneExpired fault m db).2 fault (lockInsert m) with
        | (none, db2) => (.returned none, db2)
        | (some _, db2) => Lock fault fuel m db2 := by
  simp only [Lock, MarshalMap, lockInsert]

/-- `Lock` has no path that returns an error of the store. -/
theorem Lock_never_fails (fault : Faults) (m : Mutex) :
    ∀ (fuel : Nat) (db : DynamoDB) (e : Err), (Lock fault fuel m db).1 ≠ .returned (some e) := by
  intro fuel
  induction fuel with
  | zero => intro db e; simp [Lock]
  | succ fuel ih =>
    intro db e
    rw [Lock_step]
    split
    · simp
    · exact ih _ e

/-- The trace after one iteration of `Lock`, whatever the store answered. -/
theorem Lock_trace_one (fault : Faults) (m : Mutex) (db : DynamoDB) :
    (Lock fault 1 m db).2.trace = db.trace ++ [getRequest m.Id, putRequest "hash" m] := by
  have ht := PutItem_trace fault (PruneExpired fault m db).2 (lockInsert m)
  rw [PruneExpired_state fault m db] at ht
  rw [Lock_step, PruneExpired_state fault m db]
  split
  · rename_i db2 heq
    rw [heq] at ht
    simpa [putRequest, lockInsert] using ht
  · rename_i db2 heq
    rw [heq] at ht
    simpa [Lock, putRequest, lockInsert] using ht

/-- When `Lock` returns nil, the store has just accepted its insert. -/
theorem Lock_returned (fault : Faults) (m : Mutex) :
    ∀ (n : Nat) (db : DynamoDB), (Lock fault n m db).1 = .returned none →
      record (Lock fault n m db).2 m.Id = some [("id", .S m.Id), ("Ttl", .N m.Ttl)] ∧
      ∃ db0 : DynamoDB, db0.PutItem fault (lockInsert m) = (none, (Lock fault n m db).2) := by
  intro n
  induction n with
  | zero => intro db h; simp [Lock] at h
  | succ n ih =>
    intro db
    rw [Lock_step]
    split
    · rename_i db2 heq
      intro _
      refine ⟨?_, _, heq⟩
      rw [PutItem_accepted heq]
      exact record_after_put _ _ _ _ _
    · rename_i db2 heq
      exact ih db2

/-- On a store that refuses reserved words every insert of `Lock` is answered with an error,
fault or not, and `Lock` goes on with its next iteration. -/
theorem Lock_service_step (fault : Faults) (fuel : Nat) (m : Mutex) (db : DynamoDB)
    (h : db.refusesReservedWords = true) :
    Lock fault (fuel + 1) m db
      = Lock fault fuel m
          { db with trace := db.trace ++ [getRequest m.Id, putRequest "hash" m] } := by
  cases hf : fault (db.trace.length + 1) <;>
    simp [Lock, MarshalMap, PruneExpired_state, DynamoDB.PutItem, h, hf, putRequest, tableName,
      ConditionExpression.namesReservedWord, hash_reserved]

/-- On a store that refuses reserved words `Lock` never returns. -/
theorem Lock_service_run (fault : Faults) (m : Mutex) :
    ∀ (fuel : Nat) (db : DynamoDB), db.refusesReservedWords = true →
      Lock fault fuel m db
        = (.running, { db with trace := db.trace ++ lockRequests m fuel }) := by
  intro fuel
  induction fuel with
  | zero => intro db _; simp [Lock, lockRequests]
  | succ fuel ih =>
    intro db h
    rw [Lock_service_step fault fuel m db h,
      ih { db with trace := db.trace ++ [getRequest m.Id, putRequest "hash" m] } h]
    simp [lockRequests]

/-! ## Frame lemmas -/

theorem PutItem_frame (fault : Faults) (db : DynamoDB) (input : PutItemInput) (other : AttrMap)
    (h : keyOf other ≠ keyOf input.Item) :
    lookupItem (db.PutItem fault input).2.items other = lookupItem db.items other := by
  have hne : (keyOf input.Item == keyOf other) = false := by
    simpa using fun e => h e.symm
  simp only [DynamoDB.PutItem]
  split_ifs
  · rfl
  · rfl
  · rfl
  · show lookupItem (input.Item :: removeItem db.items input.Item) other = _
    rw [← lookupItem_removeItem_of_ne db.items h]
    simp only [lookupItem, List.find?_cons, hne]
  · rfl

theorem DeleteItem_frame (fault : Faults) (db : DynamoDB) (input : DeleteItemInput)
    (other : AttrMap) (h : keyOf other ≠ keyOf input.Key) :
    lookupItem (db.DeleteItem fault input).2.items other = lookupItem db.items other := by
  unfold DynamoDB.DeleteItem
  split_ifs
  · rfl
  · rfl
  · exact lookupItem_removeItem_of_ne db.items h

theorem keyOf_ne_of_ne {k1 k2 : String} (t : Int) (h : k1 ≠ k2) :
    keyOf [("id", .S k1)] ≠ keyOf [("id", .S k2), ("Ttl", .N t)] := by
  rw [keyOf_key, keyOf_item]
  simpa using h

theorem Lock_frame (fault : Faults) (m : Mutex) (k : String) (h : k ≠ m.Id) :
    ∀ (fuel : Nat) (db : DynamoDB), record (Lock fault fuel m db).2 k = record db k := by
  intro fuel
  induction fuel with
  | zero => intro db; rfl
  | succ fuel ih =>
    intro db
    rw [Lock_step]
    have hp := PutItem_frame fault (PruneExpired fault m db).2 (lockInsert m) [("id", .S k)]
      (keyOf_ne_of_ne m.Ttl h)
    rw [PruneExpired_state fault m db] at hp
    rw [PruneExpired_state fault m db]
    split
    · rename_i db2 heq
      rw [heq] at hp
      exact hp
    · rename_i db2 heq
      rw [heq] at hp
      rw [ih]
      exact hp

theorem Unlock_frame (fault : Faults) (m : Mutex) (k : String) (h : k ≠ m.Id) :
    ∀ (fuel : Nat) (db : DynamoDB), record (Unlock fault fuel m db).2 k = record db k := by
  intro fuel
  induction fuel with
  | zero => intro db; rfl
  | succ fuel ih =>
    intro db
    by_cases hf : fault db.trace.length = true
    · rw [Unlock_step_fault fault fuel m db hf, ih]; rfl
    · rw [Unlock_step_ok fault fuel m db (by simpa using hf)]
      refine lookupItem_removeItem_of_ne db.items ?_
      rw [keyOf_key, keyOf_key]
      simpa using h

/-- The rendering of a GetItem output is never the empty string. -/
theorem String_ne_empty (render : AttrMap → String) (o : GetItemOutput) :
    (o.String render == "") = false := by
  have hopen : "\x7b\n".length = 2 := by decide
  have hlen : (o.String render).length ≠ 0 := by
    simp only [GetItemOutput.String, String.length_append, hopen]
    omega
  cases hb : (o.String render == "")
  · rfl
  · exfalso
    apply hlen
    rw [beq_iff_eq.mp hb]
    rfl

theorem CheckIfExists_eq (render : AttrMap → String) (fault : Faults) (m : Mutex)
    (db : DynamoDB) :
    CheckIfExists render fault m db
      = (false, { db with trace := db.trace ++ [getRequest m.Id] }) := by
  simp only [CheckIfExists, MarshalMapKey, String_ne_empty, getRequest]
  simp [GetItem_items]

/-! ## The claims -/

/-- C2. On the fault-free store `LockOrFail` is one conditional insert decided by the presence
of the key: it returns nil iff no record with id `m.Id` existed; it sends exactly one request,
the conditional insert; when a record existed it returns ConditionalCheckFailedException and
the items are as before; when none existed the store afterwards holds exactly one record for
`m.Id`, and that record carries `m.Ttl`. -/
theorem LockOrFail_decided_by_presence (m : Mutex) (db : DynamoDB) :
    ((LockOrFail noFault m db).1 = none ↔ record db m.Id = none) ∧
    sent db (LockOrFail noFault m db).2 = [putRequest "id" m] ∧
    (record db m.Id ≠ none →
      (LockOrFail noFault m db).1 = some .ConditionalCheckFailedException ∧
      (LockOrFail noFault m db).2.items = db.items) ∧
    (record db m.Id = none →
      recordsOf (LockOrFail noFault m db).2 m.Id = [[("id", .S m.Id), ("Ttl", .N m.Ttl)]]) := by
  rw [LockOrFail_noFault]
  cases h : record db m.Id with
  | none => simp [sent, recordsOf_after_put]
  | some old => simp [sent]

/-- Witness of C2 on the store holding a record for `job-42` and on the empty store. -/
theorem LockOrFail_decided_by_presence_witness :
    record heldDb "job-42" ≠ none ∧ record emptyDb "job-42" = none ∧
    (LockOrFail noFault ⟨⟨"job-42"⟩, 7⟩ heldDb).1 = some .ConditionalCheckFailedException ∧
    (LockOrFail noFault ⟨⟨"job-42"⟩, 7⟩ heldDb).2.items = heldDb.items ∧
    recordsOf (LockOrFail noFault ⟨⟨"job-42"⟩, 7⟩ emptyDb).2 "job-42"
      = [[("id", .S "job-42"), ("Ttl", .N 7)]] :=
  ⟨by decide, by decide,
   ((LockOrFail_decided_by_presence ⟨⟨"job-42"⟩, 7⟩ heldDb).2.2.1 (by decide)).1,
   ((LockOrFail_decided_by_presence ⟨⟨"job-42"⟩, 7⟩ heldDb).2.2.1 (by decide)).2,
   (LockOrFail_decided_by_presence ⟨⟨"job-42"⟩, 7⟩ emptyDb).2.2.2 (by decide)⟩

/-- C3, evaluated on the code.  On the service, which refuses a condition that names the
reserved word hash, release then acquire does not acquire.  `Unlock` returns nil and removes
the record of the key; the `Lock` that follows has every conditional insert refused, drops the
error and iterates: after any number of iterations it has not returned, it has sent a lookup
and an insert per iteration, and the store holds no record for the key.  This is so for every
store, key and fault oracle of the `Lock`; the last conjunct runs three iterations on the
service holding the record for `job-42`. -/
theorem Lock_after_Unlock_never_returns (fault : Faults) (m : Mutex) (db : DynamoDB)
    (fuelU fuelL : Nat) :
    Unlock noFault (fuelU + 1) m (asService db)
      = (.returned none,
          { asService db with items := removeItem db.items [("id", .S m.Id)],
                              trace := db.trace ++ [deleteRequest m.Id] }) ∧
    record (Unlock noFault (fuelU + 1) m (asService db)).2 m.Id = none ∧
    Lock fault fuelL m (Unlock noFault (fuelU + 1) m (asService db)).2
      = (.running,
          { asService db with items := removeItem db.items [("id", .S m.Id)],
                              trace := db.trace ++ deleteRequest m.Id :: lockRequests m fuelL }) ∧
    record (Lock fault fuelL m (Unlock noFault (fuelU + 1) m (asService db)).2).2 m.Id = none ∧
    Lock noFault 3 ⟨⟨"job-42"⟩, 7⟩ (Unlock noFault 1 ⟨⟨"job-42"⟩, 7⟩ serviceDb).2
      = (.running,
          { items := [],
            trace := [deleteRequest "job-42",
                      getRequest "job-42", putRequest "hash" ⟨⟨"job-42"⟩, 7⟩,
                      getRequest "job-42", putRequest "hash" ⟨⟨"job-42"⟩, 7⟩,
                      getRequest "job-42", putRequest "hash" ⟨⟨"job-42"⟩, 7⟩],
            refusesReservedWords := true }) := by
  rw [Unlock_noFault, Lock_service_run fault m fuelL _ rfl]
  refine ⟨rfl, ?_, ?_, ?_, by decide⟩
  · exact lookupItem_removeItem_self db.items _
  · simp [asService]
  · exact lookupItem_removeItem_self db.items _

/-- C4. `Unlock` is idempotent on the fault-free store: where no record for the key exists it
returns nil and leaves the items as they were; and for every store a second `Unlock` returns
the same nil and leaves the same items as the first. -/
theorem Unlock_idempotent (m : Mutex) (db : DynamoDB) (fuel fuel2 : Nat) :
    (record db m.Id = none →
      (Unlock noFault (fuel + 1) m db).1 = .returned none ∧
      (Unlock noFault (fuel + 1) m db).2.items = db.items) ∧
    (Unlock noFault (fuel2 + 1) m (Unlock noFault (fuel + 1) m db).2).1
      = (Unlock noFault (fuel + 1) m db).1 ∧
    (Unlock noFault (fuel2 + 1) m (Unlock noFault (fuel + 1) m db).2).1 = .returned none ∧
    (Unlock noFault (fuel2 + 1) m (Unlock noFault (fuel + 1) m db).2).2.items
      = (Unlock noFault (fuel + 1) m db).2.items := by
  simp only [Unlock_noFault, removeItem_idem, and_self, and_true, true_and]
  intro h
  exact removeItem_eq_self h

/-- Witness of C4 on the empty store. -/
theorem Unlock_idempotent_witness :
    record emptyDb "job-42" = none ∧
    (Unlock noFault 1 ⟨⟨"job-42"⟩, 5⟩ emptyDb).1 = .returned none ∧
    (Unlock noFault 1 ⟨⟨"job-42"⟩, 5⟩ emptyDb).2.items = emptyDb.items :=
  ⟨by decide, (Unlock_idempotent ⟨⟨"job-42"⟩, 5⟩ emptyDb 0 0).1 (by decide)⟩

/-- C8. On the fault-free store `PruneExpired` returns nil and leaves the items exactly as
they were, for every store: in particular where no record for the key exists and where the
record has not expired.  All it does is send one lookup. -/
theorem PruneExpired_noop (m : Mutex) (db : DynamoDB) :
    PruneExpired noFault m db
      = (none, { db with trace := db.trace ++ [getRequest m.Id] }) := by
  simp [PruneExpired, MarshalMapKey, DynamoDB.GetItem, noFault, tableName, getRequest]

/-- As long as every delete attempt so far met a fault, `Unlock` has not returned. -/
theorem Unlock_running (fault : Faults) (m : Mutex) (db : DynamoDB) (fuel : Nat)
    (h : ∀ i, i < fuel → fault (db.trace.length + i) = true) :
    Unlock fault fuel m db
      = (.running, { db with trace := db.trace ++ List.replicate fuel (deleteRequest m.Id) }) := by
  have := Unlock_faulty_run fault m fuel db 0 h
  simpa [Unlock] using this

/-- C1, evaluated on the code.  The store `heldDb` holds a record for `job-42` written by this
package (attributes id and Ttl).  `Lock` with Id `job-42` on the fault-free store returns nil
in its first iteration although that record is present, and replaces it: the condition it sends
is attribute_not_exists(hash), and no record of the package has an attribute hash.  So two
callers that `Lock` the same key one after the other on the empty store both succeed, and no
DeleteItem lies between the two acquisitions.  The stores here evaluate the condition, which is
the store rule this claim is stated under. -/
theorem Lock_succeeds_over_held_record :
    record heldDb "job-42" = some [("id", .S "job-42"), ("Ttl", .N 5)] ∧
    Lock noFault 1 ⟨⟨"job-42"⟩, 7⟩ heldDb
      = (.returned none,
          { items := [[("id", .S "job-42"), ("Ttl", .N 7)]],
            trace := [getRequest "job-42", putRequest "hash" ⟨⟨"job-42"⟩, 7⟩] }) ∧
    (Lock noFault 1 ⟨⟨"job-42"⟩, 5⟩ emptyDb).1 = .returned none ∧
    Lock noFault 1 ⟨⟨"job-42"⟩, 7⟩ (Lock noFault 1 ⟨⟨"job-42"⟩, 5⟩ emptyDb).2
      = (.returned none,
          { items := [[("id", .S "job-42"), ("Ttl", .N 7)]],
            trace := [getRequest "job-42", putRequest "hash" ⟨⟨"job-42"⟩, 5⟩,
                      getRequest "job-42", putRequest "hash" ⟨⟨"job-42"⟩, 7⟩] }) := by
  decide

/-- C5, evaluated on the code.  `PruneExpired` on the store holding the record for `job-42`
sends one lookup and returns nil; the record is still there afterwards.  The method never
removes anything: for every store, faulty or not, the items are the same after it as before,
so a record that has lived past its TTL stays. -/
theorem PruneExpired_keeps_expired_record :
    PruneExpired noFault ⟨⟨"job-42"⟩, 5⟩ heldDb
      = (none, { items := [[("id", .S "job-42"), ("Ttl", .N 5)]],
                 trace := [getRequest "job-42"] }) ∧
    record (PruneExpired noFault ⟨⟨"job-42"⟩, 5⟩ heldDb).2 "job-42"
      = some [("id", .S "job-42"), ("Ttl", .N 5)] ∧
    ∀ (fault : Faults) (m : Mutex) (db : DynamoDB), (PruneExpired fault m db).2.items = db.items := by
  refine ⟨by decide, by decide, ?_⟩
  intro fault m db
  rw [PruneExpired_state]

/-- Counterexample to C6.  On the empty store whose request number 1 (the first conditional
insert of `Lock`, sent after the lookup of PruneExpired) meets a transport fault, `Lock` has not
returned after that attempt; it sends a second lookup and a second conditional insert and
returns nil.  On the service, whose refusal of the reserved word hash is itself an error other
than ConditionalCheckFailed, `Lock` has not returned after the faulted attempt either and
sends a second lookup and a second insert. -/
theorem Lock_fail_fast_counterexample :
    faultAt 1 1 = true ∧
    Lock (faultAt 1) 1 ⟨⟨"job-42"⟩, 5⟩ emptyDb
      = (.running,
          { items := [],
            trace := [getRequest "job-42", putRequest "hash" ⟨⟨"job-42"⟩, 5⟩] }) ∧
    Lock (faultAt 1) 2 ⟨⟨"job-42"⟩, 5⟩ emptyDb
      = (.returned none,
          { items := [[("id", .S "job-42"), ("Ttl", .N 5)]],
            trace := [getRequest "job-42", putRequest "hash" ⟨⟨"job-42"⟩, 5⟩,
                      getRequest "job-42", putRequest "hash" ⟨⟨"job-42"⟩, 5⟩] }) ∧
    Lock (faultAt 1) 1 ⟨⟨"job-42"⟩, 5⟩ (asService emptyDb)
      = (.running,
          { items := [],
            trace := [getRequest "job-42", putRequest "hash" ⟨⟨"job-42"⟩, 5⟩],
            refusesReservedWords := true }) ∧
    Lock (faultAt 1) 2 ⟨⟨"job-42"⟩, 5⟩ (asService emptyDb)
      = (.running,
          { items := [],
            trace := [getRequest "job-42", putRequest "hash" ⟨⟨"job-42"⟩, 5⟩,
                      getRequest "job-42", putRequest "hash" ⟨⟨"job-42"⟩, 5⟩],
            refusesReservedWords := true }) := by
  decide

/-- C6 as amended.  `Lock` does not fail fast; it treats every error of PutItem alike.
Whatever error the store answers the conditional insert with (a transport fault, a refusal,
ConditionalCheckFailed), `Lock` drops it and goes on with its next loop iteration from the
state the store is then in.  In particular, when the first insert meets a transport fault the
store answers RequestError, `Lock` has not returned after that attempt, and within two
iterations it has sent two lookups and two inserts.  `Lock` never returns an error; and when
it returns nil, it does so in the state in which the store has just accepted its insert, the
record of the mutex being stored under its key. -/
theorem Lock_retries_on_every_error (fault : Faults) (m : Mutex) (db : DynamoDB) (fuel : Nat) :
    (∀ e : Err, ((PruneExpired fault m db).2.PutItem fault (lockInsert m)).1 = some e →
      Lock fault (fuel + 1) m db
        = Lock fault fuel m ((PruneExpired fault m db).2.PutItem fault (lockInsert m)).2) ∧
    (fault (db.trace.length + 1) = true →
      ((PruneExpired fault m db).2.PutItem fault (lockInsert m)).1 = some .RequestError ∧
      (Lock fault 1 m db).1 = .running ∧
      sent db (Lock fault 2 m db).2
        = [getRequest m.Id, putRequest "hash" m, getRequest m.Id, putRequest "hash" m]) ∧
    (∀ (n : Nat) (e : Err), (Lock fault n m db).1 ≠ .returned (some e)) ∧
    (∀ n : Nat, (Lock fault n m db).1 = .returned none →
      record (Lock fault n m db).2 m.Id = some [("id", .S m.Id), ("Ttl", .N m.Ttl)] ∧
      ∃ db0 : DynamoDB, db0.PutItem fault (lockInsert m) = (none, (Lock fault n m db).2)) := by
  refine ⟨?_, ?_, fun n e => Lock_never_fails fault m n db e,
    fun n hn => Lock_returned fault m n db hn⟩
  · intro e he
    rw [Lock_step]
    split
    · rename_i db2 heq
      rw [heq] at he
      cases he
    · rename_i db2 heq
      rw [heq]
  · intro h
    have hrun := Lock_step_fault fault 0 m db h
    refine ⟨?_, ?_, ?_⟩
    · rw [PruneExpired_state]
      simp [DynamoDB.PutItem, h]
    · rw [hrun]; rfl
    · rw [Lock_step_fault fault 1 m db h, sent, Lock_trace_one]
      simp

/-- Witness of the amended C6: a transport fault on the first insert on the empty store, and
ConditionalCheckFailed on a store whose record carries an attribute hash. -/
theorem Lock_retries_on_every_error_witness :
    faultAt 1 (emptyDb.trace.length + 1) = true ∧
    (Lock (faultAt 1) 1 ⟨⟨"job-42"⟩, 5⟩ emptyDb).1 = .running ∧
    ((PruneExpired noFault ⟨⟨"job-42"⟩, 5⟩ hashDb).2.PutItem noFault
        (lockInsert ⟨⟨"job-42"⟩, 5⟩)).1 = some .ConditionalCheckFailedException ∧
    Lock noFault (0 + 1) ⟨⟨"job-42"⟩, 5⟩ hashDb
      = Lock noFault 0 ⟨⟨"job-42"⟩, 5⟩
          ((PruneExpired noFault ⟨⟨"job-42"⟩, 5⟩ hashDb).2.PutItem noFault
            (lockInsert ⟨⟨"job-42"⟩, 5⟩)).2 :=
  ⟨by decide,
   ((Lock_retries_on_every_error (faultAt 1) ⟨⟨"job-42"⟩, 5⟩ emptyDb 0).2.1 (by decide)).2.1,
   by decide,
   (Lock_retries_on_every_error noFault ⟨⟨"job-42"⟩, 5⟩ hashDb 0).1
     .ConditionalCheckFailedException (by decide)⟩

/-- Counterexample to C7.  On the store whose every request meets a transport fault, `Unlock`
for `job-42` has not returned after any number of iterations, and within N+1 iterations it has
made N+1 delete attempts: no bound N holds. -/
theorem Unlock_bounded_counterexample :
    (¬ ∃ fuel : Nat, (Unlock allFault fuel ⟨⟨"job-42"⟩, 5⟩ heldDb).1 ≠ .running) ∧
    ∀ N : Nat, N < (sent heldDb (Unlock allFault (N + 1) ⟨⟨"job-42"⟩, 5⟩ heldDb).2).length := by
  have run : ∀ fuel : Nat, Unlock allFault fuel ⟨⟨"job-42"⟩, 5⟩ heldDb
      = (.running, { items := heldDb.items,
                     trace := heldDb.trace ++ List.replicate fuel (deleteRequest "job-42") }) :=
    fun fuel => Unlock_running allFault ⟨⟨"job-42"⟩, 5⟩ heldDb fuel (fun _ _ => rfl)
  constructor
  · rintro ⟨fuel, hf⟩
    exact hf (by rw [run])
  · intro N
    rw [run]
    simp [sent]

/-- C7 as amended.  `Unlock` has no bound on its delete attempts and no path that reports
failure.  It sends one DeleteItem per loop iteration: as long as every attempt met a fault it
has not returned, and when attempt number j is the first that meets no fault it returns nil
after exactly j+1 attempts, the record removed. -/
theorem Unlock_retries_until_success (fault : Faults) (m : Mutex) (db : DynamoDB) :
    (∀ (fuel : Nat) (e : Err), (Unlock fault fuel m db).1 ≠ .returned (some e)) ∧
    (∀ fuel : Nat, (∀ i, i < fuel → fault (db.trace.length + i) = true) →
      Unlock fault fuel m db
        = (.running, { db with trace := db.trace ++ List.replicate fuel (deleteRequest m.Id) })) ∧
    (∀ j fuel : Nat, (∀ i, i < j → fault (db.trace.length + i) = true) →
      fault (db.trace.length + j) = false → j < fuel →
      Unlock fault fuel m db
        = (.returned none,
            { db with items := removeItem db.items [("id", .S m.Id)],
                      trace := db.trace ++ List.replicate (j + 1) (deleteRequest m.Id) })) := by
  refine ⟨fun fuel e => Unlock_never_fails fault m fuel db e,
    fun fuel h => Unlock_running fault m db fuel h, ?_⟩
  intro j fuel h hj hlt
  obtain ⟨r, rfl⟩ : ∃ r, fuel = j + (r + 1) := ⟨fuel - j - 1, by omega⟩
  rw [Unlock_faulty_run fault m j db (r + 1) h, Unlock_step_ok]
  · simp [List.replicate_succ', List.append_assoc]
  · simpa using hj

/-- Witness of the amended C7: two faulty delete attempts, then a fault-free one. -/
theorem Unlock_retries_until_success_witness :
    Unlock (fun n => decide (n < 2)) 5 ⟨⟨"job-42"⟩, 5⟩ heldDb
      = (.returned none,
          { items := removeItem heldDb.items [("id", .S "job-42")],
            trace := heldDb.trace ++ List.replicate (2 + 1) (deleteRequest "job-42") }) :=
  (Unlock_retries_until_success (fun n => decide (n < 2)) ⟨⟨"job-42"⟩, 5⟩ heldDb).2.2 2 5
    (by intro i hi; simpa [heldDb] using hi) (by decide) (by decide)

/-- C9, evaluated on the code.  The store `heldDb` holds a record for `job-42`, and
`CheckIfExists` with Id `job-42` returns false on it: the rendering of the GetItem output
always has its braces, so the comparison with the empty string never holds, and the method
returns false on every store and for every mutex.  The items are as before. -/
theorem CheckIfExists_false_on_held_record (render : AttrMap → String) :
    record heldDb "job-42" = some [("id", .S "job-42"), ("Ttl", .N 5)] ∧
    CheckIfExists render noFault ⟨⟨"job-42"⟩, 5⟩ heldDb
      = (false, { items := heldDb.items, trace := [getRequest "job-42"] }) ∧
    ∀ (fault : Faults) (m : Mutex) (db : DynamoDB),
      (CheckIfExists render fault m db).1 = false := by
  refine ⟨by decide, ?_, ?_⟩
  · rw [CheckIfExists_eq]; rfl
  · intro fault m db
    rw [CheckIfExists_eq]

/-- C10. Key isolation: for every store, faulty or not, every mutex `m` and every lock id `k`
other than `m.Id`, the record stored under `k` (or its absence) is the same after `Lock`,
`LockOrFail`, `Unlock`, `PruneExpired` and `CheckIfExists` on `m` as before, whatever the
method returns and also while a loop is still running. -/
theorem key_isolation (render : AttrMap → String) (fault : Faults) (fuel : Nat) (m : Mutex)
    (db : DynamoDB) (k : String) (h : k ≠ m.Id) :
    record (Lock fault fuel m db).2 k = record db k ∧
    record (LockOrFail fault m db).2 k = record db k ∧
    record (Unlock fault fuel m db).2 k = record db k ∧
    record (PruneExpired fault m db).2 k = record db k ∧
    record (CheckIfExists render fault m db).2 k = record db k := by
  refine ⟨Lock_frame fault m k h fuel db, ?_, Unlock_frame fault m k h fuel db, ?_, ?_⟩
  · simp only [LockOrFail, MarshalMap]
    exact PutItem_frame fault db _ [("id", .S k)] (keyOf_ne_of_ne m.Ttl h)
  · rw [PruneExpired_state]; rfl
  · rw [CheckIfExists_eq]; rfl

/-- Witness of C10: operations on `job-42` leave the record of `job-7` alone. -/
theorem key_isolation_witness :
    "job-7" ≠ "job-42" ∧
    record (Lock noFault 3 ⟨⟨"job-42"⟩, 5⟩
      { items := [[("id", .S "job-7"), ("Ttl", .N 9)]], trace := [] }).2 "job-7"
      = record { items := [[("id", .S "job-7"), ("Ttl", .N 9)]], trace := [] } "job-7" :=
  ⟨by decide, (key_isolation (fun _ => "") noFault 3 ⟨⟨"job-42"⟩, 5⟩
      { items := [[("id", .S "job-7"), ("Ttl", .N 9)]], trace := [] } "job-7" (by decide)).1⟩

end ddbsync
